import Mathlib

/-!
Shallow embedding of the Tiendita point-of-sale backend
(`src/backend/main.py`, FastAPI + SQLAlchemy over SQLite).

Modelling decisions, all visible in the definitions below:
* The database is a record of three tables (`productos`, `ventas`,
  `cuentas_pendientes`) held as lists in insertion order, plus the
  autoincrement counters SQLite uses to assign primary keys.
* Money (`Float` in the source) is idealised as `ℚ`; quantities are `Int`
  exactly as in the source, which performs unchecked integer arithmetic.
* Timestamps (`fecha`, `fecha_creacion`) are omitted: no verified property
  mentions them and real time has no shallow embedding.
* Each endpoint is a function `DB → args → Except Err (DB × result)`.
  An `HTTPException` raised mid-handler leaves the session uncommitted and
  `get_db` closes (hence rolls back) the session, so the error branch
  carries no state: the caller keeps the pre-request database.  `aplicar`
  packages this request-level commit/rollback discipline.
* Within one request, a second `db.query(ProductoDB)` for a product already
  mutated in the session returns the same identity-mapped object with its
  in-memory (already decremented) `cantidad` — the session has
  `autoflush=False` but the identity map preserves dirty attributes.  The
  loop below therefore threads the working product list through the items.
* The three handler loops over requested `(producto_id, cantidad)` pairs in
  `crear_venta`, `crear_cuenta_pendiente` and
  `agregar_productos_cuenta_pendiente` are line-for-line identical in the
  source; they are factored here into the single `procesarDetalles`.
-/

namespace Tiendita

/-- Product row (`ProductoDB`): id, name, barcode (unique), unit price,
quantity on hand. -/
structure Producto where
  id : Nat
  nombre : String
  codigo_barras : String
  precio : ℚ
  cantidad : Int
deriving Repr, DecidableEq

/-- Sale / pending-account line item (`DetalleVentaDB` and
`DetalleCuentaPendienteDB` share these fields): product reference, quantity,
unit price captured when the line item was written. -/
structure Detalle where
  producto_id : Nat
  cantidad : Int
  precio_unitario : ℚ
deriving Repr, DecidableEq

/-- Completed sale (`VentaDB`): id, total, owned line items. -/
structure Venta where
  id : Nat
  total : ℚ
  detalles : List Detalle
deriving Repr, DecidableEq

/-- Pending account (`CuentaPendienteDB`): id, customer name, state string
("pendiente" or "pagada" as in the source), running total, owned line
items. -/
structure Cuenta where
  id : Nat
  nombre_cliente : String
  estado : String
  total : ℚ
  detalles : List Detalle
deriving Repr, DecidableEq

/-- The whole SQLite database: the three tables in insertion order plus the
autoincrement counters. -/
structure DB where
  productos : List Producto
  ventas : List Venta
  cuentas : List Cuenta
  nextProductoId : Nat
  nextVentaId : Nat
  nextCuentaId : Nat
deriving Repr, DecidableEq

/-- The empty database created by `Base.metadata.create_all`. -/
def dbInicial : DB := ⟨[], [], [], 1, 1, 1⟩

/-- The `HTTPException`s the handlers raise, tagged by their meaning and
carrying the `detail` string of the source.  `notFound` is status 404; the
other three are status 400. -/
inductive Err where
  | notFound (detail : String)
  | insufficientStock (detail : String)
  | duplicateBarcode (detail : String)
  | updateError (detail : String)
deriving Repr, DecidableEq

deriving instance DecidableEq for Except

/-- Request body `ProductoCreate`. -/
structure ProductoCreate where
  nombre : String
  codigo_barras : String
  precio : ℚ
  cantidad : Int
deriving Repr, DecidableEq

/-- Request line item (`DetalleVentaCreate` and
`DetalleCuentaPendienteCreate` have identical fields). -/
structure DetalleCreate where
  producto_id : Nat
  cantidad : Int
deriving Repr, DecidableEq

/-- Request body `VentaCreate`. -/
structure VentaCreate where
  detalles : List DetalleCreate
deriving Repr, DecidableEq

/-- Request body `CuentaPendienteCreate`. -/
structure CuentaPendienteCreate where
  nombre_cliente : String
  detalles : List DetalleCreate
deriving Repr, DecidableEq

/-- `db.query(ProductoDB).filter(ProductoDB.id == pid).first()`. -/
def lookupProducto (productos : List Producto) (pid : Nat) : Option Producto :=
  productos.find? (fun p => p.id == pid)

/-- Replace the first element satisfying `pred` by its image under `f`
(mutating one identity-mapped ORM object in place). -/
def updateFirst (l : List α) (pred : α → Bool) (f : α → α) : List α :=
  match l with
  | [] => []
  | x :: xs => if pred x then f x :: xs else x :: updateFirst xs pred f

/-- `producto.cantidad -= item.cantidad` on the row with id `pid`. -/
def decrementar (productos : List Producto) (pid : Nat) (q : Int) : List Producto :=
  updateFirst productos (fun p => p.id == pid)
    (fun p => { p with cantidad := p.cantidad - q })

/-- The line-item loop shared verbatim by `crear_venta`,
`crear_cuenta_pendiente` and `agregar_productos_cuenta_pendiente`: for each
requested `(producto_id, cantidad)` in request order, look the product up
(404 if absent), compare stock (400 if `producto.cantidad < item.cantidad`),
decrement the working stock, and emit a line item priced at the product's
current `precio`, accumulating the running total.  A raised exception aborts
the whole request before `db.commit()`, so the error branch drops the
working state. -/
def procesarDetalles : List DetalleCreate → List Producto →
    Except Err (List Producto × List Detalle × ℚ)
  | [], productos => .ok (productos, [], 0)
  | item :: rest, productos =>
    match lookupProducto productos item.producto_id with
    | none => .error (.notFound
        ("Producto con id " ++ toString item.producto_id ++ " no encontrado"))
    | some producto =>
      if producto.cantidad < item.cantidad then
        .error (.insufficientStock ("Stock insuficiente para " ++ producto.nombre))
      else
        match procesarDetalles rest (decrementar productos item.producto_id item.cantidad) with
        | .error e => .error e
        | .ok (productos', ds, t) =>
          .ok (productos',
               ⟨producto.id, item.cantidad, producto.precio⟩ :: ds,
               producto.precio * (item.cantidad : ℚ) + t)

/-- `POST /api/productos`: insert; the unique index on `codigo_barras` makes
the commit fail (rolled back, 400) when the barcode already exists. -/
def crear_producto (db : DB) (producto : ProductoCreate) : Except Err (DB × Producto) :=
  if db.productos.any (fun q => q.codigo_barras == producto.codigo_barras) then
    .error (.duplicateBarcode "Código de barras ya registrado")
  else
    let nuevo : Producto :=
      ⟨db.nextProductoId, producto.nombre, producto.codigo_barras,
       producto.precio, producto.cantidad⟩
    .ok ({ db with
           productos := db.productos ++ [nuevo],
           nextProductoId := db.nextProductoId + 1 }, nuevo)

/-- `GET /api/productos` (pagination elided: the claims never page). -/
def listar_productos (db : DB) : List Producto := db.productos

/-- `PUT /api/productos/{producto_id}`: 404 if absent; otherwise overwrite
every mutable field from the request body; the unique-barcode index makes the
commit fail (rolled back, 400) when the new barcode belongs to another
row. -/
def editar_producto (db : DB) (pid : Nat) (producto : ProductoCreate) :
    Except Err (DB × Producto) :=
  match lookupProducto db.productos pid with
  | none => .error (.notFound "Producto no encontrado")
  | some old =>
    if db.productos.any (fun q => q.id != old.id &&
        q.codigo_barras == producto.codigo_barras) then
      .error (.updateError "Error al actualizar el producto")
    else
      let nuevo : Producto :=
        ⟨old.id, producto.nombre, producto.codigo_barras,
         producto.precio, producto.cantidad⟩
      .ok ({ db with
             productos := updateFirst db.productos (fun q => q.id == pid)
               (fun _ => nuevo) }, nuevo)

/-- `DELETE /api/productos/{producto_id}`. -/
def eliminar_producto (db : DB) (pid : Nat) : Except Err DB :=
  match lookupProducto db.productos pid with
  | none => .error (.notFound "Producto no encontrado")
  | some _ => .ok { db with productos := db.productos.eraseP (fun q => q.id == pid) }

/-- `POST /api/ventas`: run the line-item loop, then commit the decremented
stock together with the new `VentaDB` row. -/
def crear_venta (db : DB) (venta : VentaCreate) : Except Err (DB × Venta) :=
  match procesarDetalles venta.detalles db.productos with
  | .error e => .error e
  | .ok (productos', detalles, total) =>
    let v : Venta := ⟨db.nextVentaId, total, detalles⟩
    .ok ({ db with
           productos := productos',
           ventas := db.ventas ++ [v],
           nextVentaId := db.nextVentaId + 1 }, v)

/-- `POST /api/cuentas_pendientes`: same loop, then commit the new account in
state "pendiente". -/
def crear_cuenta_pendiente (db : DB) (cuenta : CuentaPendienteCreate) :
    Except Err (DB × Cuenta) :=
  match procesarDetalles cuenta.detalles db.productos with
  | .error e => .error e
  | .ok (productos', detalles, total) =>
    let c : Cuenta := ⟨db.nextCuentaId, cuenta.nombre_cliente, "pendiente", total, detalles⟩
    .ok ({ db with
           productos := productos',
           cuentas := db.cuentas ++ [c],
           nextCuentaId := db.nextCuentaId + 1 }, c)

/-- `GET /api/cuentas_pendientes`: only accounts whose `estado` is
"pendiente". -/
def listar_cuentas_pendientes (db : DB) : List Cuenta :=
  db.cuentas.filter (fun c => c.estado == "pendiente")

/-- `POST /api/cuentas_pendientes/{cuenta_id}/pagar`: the query filters on
`id == cuenta_id AND estado == "pendiente"`, so a missing id and an
already-paid account both give the same 404.  On success a `VentaDB` copying
the account's line items and total is inserted and the account's state is set
to "pagada", in one commit. -/
def pagar_cuenta_pendiente (db : DB) (cid : Nat) : Except Err (DB × Cuenta) :=
  match db.cuentas.find? (fun c => c.id == cid && c.estado == "pendiente") with
  | none => .error (.notFound "Cuenta pendiente no encontrada")
  | some cuenta =>
    let v : Venta := ⟨db.nextVentaId, cuenta.total, cuenta.detalles⟩
    .ok ({ db with
           ventas := db.ventas ++ [v],
           cuentas := updateFirst db.cuentas
             (fun c => c.id == cid && c.estado == "pendiente")
             (fun c => { c with estado := "pagada" }),
           nextVentaId := db.nextVentaId + 1 },
         { cuenta with estado := "pagada" })

/-- `POST /api/cuentas_pendientes/{cuenta_id}/agregar_productos`: same 404
filter as settle, then the shared line-item loop; the new line items are
appended to the account and `cuenta.total += total_agregado`, in one
commit. -/
def agregar_productos_cuenta_pendiente (db : DB) (cid : Nat)
    (req : List DetalleCreate) : Except Err (DB × Cuenta) :=
  match db.cuentas.find? (fun c => c.id == cid && c.estado == "pendiente") with
  | none => .error (.notFound "Cuenta pendiente no encontrada")
  | some cuenta =>
    match procesarDetalles req db.productos with
    | .error e => .error e
    | .ok (productos', nuevos, total_agregado) =>
      .ok ({ db with
             productos := productos',
             cuentas := updateFirst db.cuentas
               (fun c => c.id == cid && c.estado == "pendiente")
               (fun c => { c with
                           total := c.total + total_agregado,
                           detalles := c.detalles ++ nuevos }) },
           { cuenta with
             total := cuenta.total + total_agregado,
             detalles := cuenta.detalles ++ nuevos })

/-- One mutating HTTP request. -/
inductive Op where
  | crearProducto (p : ProductoCreate)
  | editarProducto (pid : Nat) (p : ProductoCreate)
  | eliminarProducto (pid : Nat)
  | crearVenta (v : VentaCreate)
  | crearCuenta (c : CuentaPendienteCreate)
  | agregarProductos (cid : Nat) (req : List DetalleCreate)
  | pagarCuenta (cid : Nat)
deriving Repr, DecidableEq

/-- Run one request against the store.  A handler that raises commits
nothing: `get_db` closes the session and the uncommitted mutations are
rolled back, so the pre-request database is kept. -/
def aplicar (op : Op) (db : DB) : DB :=
  match op with
  | .crearProducto p =>
    match crear_producto db p with | .ok (db', _) => db' | .error _ => db
  | .editarProducto pid p =>
    match editar_producto db pid p with | .ok (db', _) => db' | .error _ => db
  | .eliminarProducto pid =>
    match eliminar_producto db pid with | .ok db' => db' | .error _ => db
  | .crearVenta v =>
    match crear_venta db v with | .ok (db', _) => db' | .error _ => db
  | .crearCuenta c =>
    match crear_cuenta_pendiente db c with | .ok (db', _) => db' | .error _ => db
  | .agregarProductos cid req =>
    match agregar_productos_cuenta_pendiente db cid req with
    | .ok (db', _) => db' | .error _ => db
  | .pagarCuenta cid =>
    match pagar_cuenta_pendiente db cid with | .ok (db', _) => db' | .error _ => db

/-- Run a sequence of requests. -/
def run (ops : List Op) (db : DB) : DB := ops.foldl (fun d op => aplicar op d) db

/-- Sum of `quantity × unit_price` over a list of line items. -/
def sumaDetalles (ds : List Detalle) : ℚ :=
  (ds.map (fun d => d.precio_unitario * (d.cantidad : ℚ))).sum

/-- Total quantity a request asks for a given product, over all of its line
items for that product. -/
def cantidadPedida (dets : List DetalleCreate) (pid : Nat) : Int :=
  ((dets.filter (fun d => d.producto_id == pid)).map (fun d => d.cantidad)).sum

/-- Every product's quantity on hand is non-negative. -/
def stockNoNegativo (db : DB) : Prop := ∀ p ∈ db.productos, 0 ≤ p.cantidad

/-- Every pending account's stored total is the sum of its line items. -/
def cuentasTotalOk (db : DB) : Prop := ∀ c ∈ db.cuentas, c.total = sumaDetalles c.detalles

/-- The request carries a non-negative quantity wherever it sets one
directly (product creation and product update payloads). -/
def opCantidadOk : Op → Bool
  | .crearProducto p => decide (0 ≤ p.cantidad)
  | .editarProducto _ p => decide (0 ≤ p.cantidad)
  | _ => true

section Lemas

lemma mem_updateFirst {l : List α} {pred : α → Bool} {f : α → α} {x : α}
    (hx : x ∈ updateFirst l pred f) :
    x ∈ l ∨ ∃ y, l.find? pred = some y ∧ x = f y := by
  induction l with
  | nil => simp [updateFirst] at hx
  | cons a tl ih =>
    by_cases ha : pred a
    · simp only [updateFirst, if_pos ha] at hx
      rcases List.mem_cons.mp hx with h | h
      · exact Or.inr ⟨a, List.find?_cons_of_pos _ ha, h⟩
      · exact Or.inl (List.mem_cons_of_mem a h)
    · simp only [updateFirst, if_neg ha] at hx
      rcases List.mem_cons.mp hx with h | h
      · exact Or.inl (h ▸ List.mem_cons_self a tl)
      · rcases ih h with h' | ⟨y, hy, hxy⟩
        · exact Or.inl (List.mem_cons_of_mem a h')
        · exact Or.inr ⟨y, by rw [List.find?_cons_of_neg _ (by simpa using ha)]; exact hy, hxy⟩

lemma updateFirst_of_find? {l : List α} {pred : α → Bool} {f : α → α} {y : α}
    (h : l.find? pred = some y) : f y ∈ updateFirst l pred f := by
  induction l with
  | nil => simp [List.find?] at h
  | cons a tl ih =>
    by_cases ha : pred a
    · rw [List.find?_cons_of_pos _ ha] at h
      simp only [updateFirst, if_pos ha]
      exact (Option.some.injEq _ _ ▸ h) ▸ List.mem_cons_self _ _
    · rw [List.find?_cons_of_neg _ (by simpa using ha)] at h
      simp only [updateFirst, if_neg ha]
      exact List.mem_cons_of_mem a (ih h)

lemma countP_updateFirst {l : List α} {pred pred' : α → Bool} {f : α → α}
    (hf : ∀ y, pred' (f y) = pred' y) :
    (updateFirst l pred f).countP pred' = l.countP pred' := by
  induction l with
  | nil => rfl
  | cons a tl ih =>
    by_cases ha : pred a
    · simp only [updateFirst, if_pos ha, List.countP_cons, hf]
    · simp only [updateFirst, if_neg ha, List.countP_cons, ih]

lemma two_le_countP_of_mem {l : List α} {pred' : α → Bool} {a b : α}
    (hab : a ≠ b) (ha : a ∈ l) (hb : b ∈ l)
    (hpa : pred' a = true) (hpb : pred' b = true) :
    2 ≤ l.countP pred' := by
  induction l with
  | nil => simp at ha
  | cons c tl ih =>
    rcases List.mem_cons.mp ha with rfl | ha'
    · rcases List.mem_cons.mp hb with rfl | hb'
      · exact absurd rfl hab
      · have h1 : 1 ≤ tl.countP pred' := List.countP_pos_iff.mpr ⟨b, hb', hpb⟩
        simp only [List.countP_cons, hpa, if_pos]
        omega
    · rcases List.mem_cons.mp hb with rfl | hb'
      · have h1 : 1 ≤ tl.countP pred' := List.countP_pos_iff.mpr ⟨a, ha', hpa⟩
        simp only [List.countP_cons, hpb, if_pos]
        omega
      · have := ih ha' hb'
        simp only [List.countP_cons]
        omega

lemma lookupProducto_decrementar (l : List Producto) (pid : Nat) (q : Int) (pid' : Nat) :
    lookupProducto (decrementar l pid q) pid' =
      if pid' = pid then
        (lookupProducto l pid).map (fun p => { p with cantidad := p.cantidad - q })
      else lookupProducto l pid' := by
  induction l with
  | nil => by_cases h : pid' = pid <;> simp [decrementar, updateFirst, lookupProducto, h]
  | cons a tl ih =>
    by_cases ha : a.id = pid
    · have hd : decrementar (a :: tl) pid q = { a with cantidad := a.cantidad - q } :: tl := by
        simp [decrementar, updateFirst, ha]
      by_cases hpp : pid' = pid
      · subst hpp
        rw [hd]
        unfold lookupProducto
        rw [List.find?_cons_of_pos _ (by simp [ha]), List.find?_cons_of_pos _ (by simp [ha])]
        simp
      · rw [hd, if_neg hpp]
        unfold lookupProducto
        rw [List.find?_cons_of_neg _ (by simp [ha]; omega),
            List.find?_cons_of_neg _ (by simp [ha]; omega)]
    · have hd : decrementar (a :: tl) pid q = a :: decrementar tl pid q := by
        simp [decrementar, updateFirst, ha]
      by_cases hpp : pid' = pid
      · subst hpp
        rw [hd, if_pos rfl]
        unfold lookupProducto
        rw [List.find?_cons_of_neg _ (by simp [ha]), List.find?_cons_of_neg _ (by simp [ha])]
        have := ih
        rw [if_pos rfl] at this
        exact this
      · rw [hd, if_neg hpp]
        by_cases hp : a.id = pid'
        · unfold lookupProducto
          rw [List.find?_cons_of_pos _ (by simp [hp]), List.find?_cons_of_pos _ (by simp [hp])]
        · unfold lookupProducto
          rw [List.find?_cons_of_neg _ (by simp [hp]), List.find?_cons_of_neg _ (by simp [hp])]
          have := ih
          rw [if_neg hpp] at this
          exact this

lemma lookupProducto_mem {l : List Producto} {pid : Nat} {p : Producto}
    (h : lookupProducto l pid = some p) : p ∈ l :=
  List.mem_of_find?_eq_some h

lemma lookupProducto_id {l : List Producto} {pid : Nat} {p : Producto}
    (h : lookupProducto l pid = some p) : p.id = pid := by
  have := List.find?_some h
  simpa using this

lemma cantidadPedida_nil (pid : Nat) : cantidadPedida [] pid = 0 := rfl

lemma cantidadPedida_cons_self {item : DetalleCreate} {pid : Nat}
    (rest : List DetalleCreate) (h : item.producto_id = pid) :
    cantidadPedida (item :: rest) pid = item.cantidad + cantidadPedida rest pid := by
  simp [cantidadPedida, h]

lemma cantidadPedida_cons_ne {item : DetalleCreate} {pid : Nat}
    (rest : List DetalleCreate) (h : ¬ item.producto_id = pid) :
    cantidadPedida (item :: rest) pid = cantidadPedida rest pid := by
  simp [cantidadPedida, h]

lemma cantidadPedida_eq_zero {dets : List DetalleCreate} {pid : Nat}
    (h : ∀ it ∈ dets, ¬ it.producto_id = pid) : cantidadPedida dets pid = 0 := by
  have : dets.filter (fun d => d.producto_id == pid) = [] := by
    rw [List.filter_eq_nil_iff]
    intro a ha
    simpa using h a ha
  simp [cantidadPedida, this]

/-- Inversion of a successful run of the line-item loop at a cons cell. -/
lemma procesar_cons_ok {item : DetalleCreate} {rest : List DetalleCreate}
    {productos productos' : List Producto} {ds : List Detalle} {t : ℚ} :
    procesarDetalles (item :: rest) productos = .ok (productos', ds, t) ↔
      ∃ producto ds2 t2,
        lookupProducto productos item.producto_id = some producto ∧
        ¬ producto.cantidad < item.cantidad ∧
        procesarDetalles rest (decrementar productos item.producto_id item.cantidad) =
          .ok (productos', ds2, t2) ∧
        ds = ⟨producto.id, item.cantidad, producto.precio⟩ :: ds2 ∧
        t = producto.precio * (item.cantidad : ℚ) + t2 := by
  constructor
  · intro h
    cases hlook : lookupProducto productos item.producto_id with
    | none => simp [procesarDetalles, hlook] at h
    | some producto =>
      by_cases hst : producto.cantidad < item.cantidad
      · simp [procesarDetalles, hlook, hst] at h
      · cases hrec : procesarDetalles rest (decrementar productos item.producto_id item.cantidad) with
        | error e => simp [procesarDetalles, hlook, hst, hrec] at h
        | ok res =>
          obtain ⟨ps2, ds2, t2⟩ := res
          simp only [procesarDetalles, hlook, if_neg hst, hrec, Except.ok.injEq,
            Prod.mk.injEq] at h
          obtain ⟨hps, hds, ht⟩ := h
          subst hps
          exact ⟨producto, ds2, t2, rfl, hst, rfl, hds.symm, ht.symm⟩
  · rintro ⟨producto, ds2, t2, hlook, hst, hrec, hds, ht⟩
    simp [procesarDetalles, hlook, if_neg hst, hrec, hds, ht]

/-- The accumulated total is the sum of the emitted line items. -/
lemma procesar_ok_total {dets : List DetalleCreate} {productos productos' : List Producto}
    {ds : List Detalle} {t : ℚ}
    (h : procesarDetalles dets productos = .ok (productos', ds, t)) :
    t = sumaDetalles ds := by
  induction dets generalizing productos ds t with
  | nil =>
    simp only [procesarDetalles, Except.ok.injEq, Prod.mk.injEq] at h
    obtain ⟨-, hds, ht⟩ := h
    simp [← hds, ← ht, sumaDetalles]
  | cons item rest ih =>
    obtain ⟨producto, ds2, t2, hlook, hst, hrec, hds, ht⟩ := procesar_cons_ok.mp h
    have ht2 := ih hrec
    subst hds ht
    simp [sumaDetalles] at ht2 ⊢
    rw [ht2]

/-- Exactness of the loop's effect on stock: on success, every product's
quantity drops by exactly the total quantity the request asked of it, and
nothing else about the product list changes. -/
lemma procesar_ok_lookup {dets : List DetalleCreate} {productos productos' : List Producto}
    {ds : List Detalle} {t : ℚ}
    (h : procesarDetalles dets productos = .ok (productos', ds, t)) (pid : Nat) :
    lookupProducto productos' pid =
      (lookupProducto productos pid).map
        (fun p => { p with cantidad := p.cantidad - cantidadPedida dets pid }) := by
  induction dets generalizing productos ds t with
  | nil =>
    simp only [procesarDetalles, Except.ok.injEq, Prod.mk.injEq] at h
    obtain ⟨hps, -, -⟩ := h
    rw [← hps]
    cases lookupProducto productos pid <;> simp [cantidadPedida_nil]
  | cons item rest ih =>
    obtain ⟨producto, ds2, t2, hlook, hst, hrec, hds, ht⟩ := procesar_cons_ok.mp h
    have hmid := lookupProducto_decrementar productos item.producto_id item.cantidad pid
    by_cases hpp : item.producto_id = pid
    · subst hpp
      rw [ih hrec, hmid, if_pos rfl,
          cantidadPedida_cons_self rest rfl, Option.map_map]
      cases lookupProducto productos item.producto_id with
      | none => simp
      | some p =>
        simp only [Option.map_some', Option.some.injEq, Function.comp]
        congr 1
        omega
    · rw [ih hrec, hmid, if_neg (fun hh => hpp hh.symm),
          cantidadPedida_cons_ne rest hpp]

/-- Every emitted line item carries the price the product had in the list
the loop started from (prices are never modified inside the loop). -/
lemma procesar_ok_precio {dets : List DetalleCreate} {productos productos' : List Producto}
    {ds : List Detalle} {t : ℚ}
    (h : procesarDetalles dets productos = .ok (productos', ds, t)) :
    ∀ d ∈ ds, ∃ p, lookupProducto productos d.producto_id = some p ∧
      d.precio_unitario = p.precio := by
  induction dets generalizing productos ds t with
  | nil =>
    simp only [procesarDetalles, Except.ok.injEq, Prod.mk.injEq] at h
    obtain ⟨-, hds, -⟩ := h
    intro d hd
    rw [← hds] at hd
    simp at hd
  | cons item rest ih =>
    obtain ⟨producto, ds2, t2, hlook, hst, hrec, hds, ht⟩ := procesar_cons_ok.mp h
    subst hds
    intro d hd
    rcases List.mem_cons.mp hd with rfl | hd2
    · exact ⟨producto, by rw [lookupProducto_id hlook]; exact hlook, rfl⟩
    · obtain ⟨p', hp', hprecio⟩ := ih hrec d hd2
      rw [lookupProducto_decrementar] at hp'
      by_cases hpp : d.producto_id = item.producto_id
      · rw [if_pos hpp] at hp'
        cases hl : lookupProducto productos item.producto_id with
        | none => rw [hl] at hp'; simp at hp'
        | some p0 =>
          rw [hl] at hp'
          simp only [Option.map_some', Option.some.injEq] at hp'
          refine ⟨p0, by rw [hpp]; exact hl, ?_⟩
          rw [hprecio, ← hp']
      · rw [if_neg hpp] at hp'
        exact ⟨p', hp', hprecio⟩

/-- If all stock is non-negative going in, it is non-negative coming out of a
successful loop: every decrement is guarded by the sufficiency check. -/
lemma procesar_ok_nonneg {dets : List DetalleCreate} {productos productos' : List Producto}
    {ds : List Detalle} {t : ℚ}
    (h0 : ∀ p ∈ productos, 0 ≤ p.cantidad)
    (h : procesarDetalles dets productos = .ok (productos', ds, t)) :
    ∀ p ∈ productos', 0 ≤ p.cantidad := by
  induction dets generalizing productos ds t with
  | nil =>
    simp only [procesarDetalles, Except.ok.injEq, Prod.mk.injEq] at h
    obtain ⟨hps, -, -⟩ := h
    rw [← hps]
    exact h0
  | cons item rest ih =>
    obtain ⟨producto, ds2, t2, hlook, hst, hrec, -, -⟩ := procesar_cons_ok.mp h
    refine ih ?_ hrec
    intro p hp
    rcases mem_updateFirst hp with hmem | ⟨y, hy, rfl⟩
    · exact h0 p hmem
    · have : y = producto := by
        have : lookupProducto productos item.producto_id = some y := hy
        rw [hlook] at this
        exact (Option.some.injEq _ _ ▸ this).symm
      subst this
      simpa using Int.sub_nonneg.mpr (Int.not_lt.mp hst)

/-- On success, every product some line item touched ends with non-negative
stock: its last decrement was guarded, and nothing later touches it. -/
lemma procesar_ok_touched {dets : List DetalleCreate} {productos productos' : List Producto}
    {ds : List Detalle} {t : ℚ}
    (h : procesarDetalles dets productos = .ok (productos', ds, t)) :
    ∀ it ∈ dets, ∃ p', lookupProducto productos' it.producto_id = some p' ∧
      0 ≤ p'.cantidad := by
  induction dets generalizing productos ds t with
  | nil => intro it hit; simp at hit
  | cons item rest ih =>
    obtain ⟨producto, ds2, t2, hlook, hst, hrec, -, -⟩ := procesar_cons_ok.mp h
    intro it hit
    rcases List.mem_cons.mp hit with rfl | hit2
    · by_cases hocc : ∃ it2 ∈ rest, it2.producto_id = it.producto_id
      · obtain ⟨it2, hit2, heq⟩ := hocc
        obtain ⟨p', hp', hn⟩ := ih hrec it2 hit2
        exact ⟨p', by rw [← heq]; exact hp', hn⟩
      · have hzero : cantidadPedida rest it.producto_id = 0 :=
          cantidadPedida_eq_zero (fun it2 h2 hcontra => hocc ⟨it2, h2, hcontra⟩)
        have hfin := procesar_ok_lookup hrec it.producto_id
        rw [hzero] at hfin
        have hmid := lookupProducto_decrementar productos it.producto_id it.cantidad
          it.producto_id
        rw [if_pos rfl, hlook] at hmid
        rw [hmid] at hfin
        have hfin2 : lookupProducto productos' it.producto_id =
            some { producto with cantidad := producto.cantidad - it.cantidad } := by
          rw [hfin]; simp
        exact ⟨_, hfin2, by simp only []; omega⟩
    · exact ih hrec it hit2

/-- If every requested product id resolves, the loop either succeeds or stops
at a stock check: it never reports `notFound`. -/
lemma procesar_present {dets : List DetalleCreate} {productos : List Producto}
    (hpres : ∀ it ∈ dets, (lookupProducto productos it.producto_id).isSome = true) :
    (∃ r, procesarDetalles dets productos = .ok r) ∨
    (∃ m, procesarDetalles dets productos = .error (.insufficientStock m)) := by
  induction dets generalizing productos with
  | nil => exact Or.inl ⟨(productos, [], 0), rfl⟩
  | cons item rest ih =>
    have hhead := hpres item (List.mem_cons_self _ _)
    cases hlook : lookupProducto productos item.producto_id with
    | none => rw [hlook] at hhead; simp at hhead
    | some producto =>
      by_cases hst : producto.cantidad < item.cantidad
      · exact Or.inr ⟨"Stock insuficiente para " ++ producto.nombre,
          by simp [procesarDetalles, hlook, hst]⟩
      · have hpres2 : ∀ it ∈ rest,
            (lookupProducto (decrementar productos item.producto_id item.cantidad)
              it.producto_id).isSome = true := by
          intro it hit
          rw [lookupProducto_decrementar]
          by_cases hpp : it.producto_id = item.producto_id
          · rw [if_pos hpp, hlook]; simp
          · rw [if_neg hpp]; exact hpres it (List.mem_cons_of_mem _ hit)
        rcases ih hpres2 with ⟨⟨ps2, ds2, t2⟩, hok⟩ | ⟨m, herr⟩
        · exact Or.inl ⟨(ps2, ⟨producto.id, item.cantidad, producto.precio⟩ :: ds2,
            producto.precio * (item.cantidad : ℚ) + t2),
            by simp [procesarDetalles, hlook, hst, hok]⟩
        · exact Or.inr ⟨m, by simp [procesarDetalles, hlook, hst, herr]⟩

/-- A request that asks, over all its line items for one product, for more
than that product's opening stock can never pass the per-item checks. -/
lemma procesar_sobrepedido {dets : List DetalleCreate} {productos : List Producto}
    {pid : Nat} {p : Producto}
    (hpres : ∀ it ∈ dets, (lookupProducto productos it.producto_id).isSome = true)
    (hocc : ∃ it ∈ dets, it.producto_id = pid)
    (hp : lookupProducto productos pid = some p)
    (hover : p.cantidad < cantidadPedida dets pid) :
    ∃ m, procesarDetalles dets productos = .error (.insufficientStock m) := by
  rcases procesar_present hpres with ⟨⟨ps', ds, t⟩, hok⟩ | herr
  · exfalso
    obtain ⟨it0, hit0, hpid⟩ := hocc
    obtain ⟨p', hp', hn⟩ := procesar_ok_touched hok it0 hit0
    rw [hpid] at hp'
    have hfin := procesar_ok_lookup hok pid
    rw [hp, hp'] at hfin
    simp only [Option.map_some', Option.some.injEq] at hfin
    rw [hfin] at hn
    simp only [] at hn
    omega
  · exact herr

/-- One line item that cannot be satisfied — missing product, or more stock
than is available once the earlier (non-negative) items have been reserved —
makes the whole loop raise. -/
lemma procesar_mal {dets : List DetalleCreate} {productos : List Producto}
    (hq : ∀ it ∈ dets, 0 ≤ it.cantidad)
    (hbad : ∃ it ∈ dets, lookupProducto productos it.producto_id = none ∨
      ∃ p, lookupProducto productos it.producto_id = some p ∧ p.cantidad < it.cantidad) :
    ∃ e, procesarDetalles dets productos = .error e := by
  induction dets generalizing productos with
  | nil => obtain ⟨it, hit, -⟩ := hbad; simp at hit
  | cons item rest ih =>
    cases hlook : lookupProducto productos item.producto_id with
    | none =>
      exact ⟨.notFound ("Producto con id " ++ toString item.producto_id ++ " no encontrado"),
        by simp [procesarDetalles, hlook]⟩
    | some producto =>
      by_cases hst : producto.cantidad < item.cantidad
      · exact ⟨.insufficientStock ("Stock insuficiente para " ++ producto.nombre),
          by simp [procesarDetalles, hlook, hst]⟩
      · obtain ⟨it, hit, hb⟩ := hbad
        have hit2 : it ∈ rest := by
          rcases List.mem_cons.mp hit with rfl | h2
          · exfalso
            rcases hb with hnone | ⟨p, hp, hlt⟩
            · rw [hlook] at hnone; exact Option.noConfusion hnone
            · rw [hlook] at hp
              have hpe : producto = p := by injection hp
              exact hst (hpe ▸ hlt)
          · exact h2
        have hq0 : (0 : Int) ≤ item.cantidad := hq item (List.mem_cons_self _ _)
        have hbad2 : ∃ it2 ∈ rest,
            lookupProducto (decrementar productos item.producto_id item.cantidad)
              it2.producto_id = none ∨
            ∃ p, lookupProducto (decrementar productos item.producto_id item.cantidad)
              it2.producto_id = some p ∧ p.cantidad < it2.cantidad := by
          refine ⟨it, hit2, ?_⟩
          rw [lookupProducto_decrementar]
          by_cases hpp : it.producto_id = item.producto_id
          · rw [if_pos hpp]
            rw [hpp] at hb
            rcases hb with hnone | ⟨p, hp, hlt⟩
            · rw [hnone] at hlook; exact Option.noConfusion hlook
            · refine Or.inr ⟨_, by rw [hp]; rfl, ?_⟩
              show p.cantidad - item.cantidad < it.cantidad
              omega
          · rw [if_neg hpp]
            exact hb
        obtain ⟨e, he⟩ := ih (fun it2 h2 => hq it2 (List.mem_cons_of_mem _ h2)) hbad2
        exact ⟨e, by simp [procesarDetalles, hlook, hst, he]⟩

lemma sumaDetalles_append (a b : List Detalle) :
    sumaDetalles (a ++ b) = sumaDetalles a + sumaDetalles b := by
  simp [sumaDetalles]

/-- Every single request preserves non-negative stock, as long as the
request does not itself write a negative quantity into a product row. -/
lemma aplicar_stock {op : Op} {db : DB} (h0 : stockNoNegativo db)
    (hop : opCantidadOk op = true) : stockNoNegativo (aplicar op db) := by
  cases op with
  | crearProducto p =>
    simp only [opCantidadOk, decide_eq_true_eq] at hop
    by_cases hdup : db.productos.any (fun q => q.codigo_barras == p.codigo_barras) = true
    · simpa [aplicar, crear_producto, hdup] using h0
    · intro x hx
      simp only [aplicar, crear_producto, hdup] at hx
      simp only [Bool.false_eq_true, if_false, List.mem_append, List.mem_singleton] at hx
      rcases hx with hmem | rfl
      · exact h0 x hmem
      · exact hop
  | editarProducto pid p =>
    simp only [opCantidadOk, decide_eq_true_eq] at hop
    cases hlook : lookupProducto db.productos pid with
    | none => simpa [aplicar, editar_producto, hlook] using h0
    | some old =>
      by_cases hdup : db.productos.any
          (fun q => q.id != old.id && q.codigo_barras == p.codigo_barras) = true
      · simpa [aplicar, editar_producto, hlook, hdup] using h0
      · intro x hx
        simp only [aplicar, editar_producto, hlook, hdup, Bool.false_eq_true,
          if_false] at hx
        rcases mem_updateFirst hx with hmem | ⟨y, -, rfl⟩
        · exact h0 x hmem
        · exact hop
  | eliminarProducto pid =>
    cases hlook : lookupProducto db.productos pid with
    | none => simpa [aplicar, eliminar_producto, hlook] using h0
    | some old =>
      intro x hx
      simp only [aplicar, eliminar_producto, hlook] at hx
      exact h0 x (List.Sublist.subset (List.eraseP_sublist _) hx)
  | crearVenta v =>
    cases hres : procesarDetalles v.detalles db.productos with
    | error e => simpa [aplicar, crear_venta, hres] using h0
    | ok res =>
      obtain ⟨ps', ds, t⟩ := res
      intro x hx
      simp only [aplicar, crear_venta, hres] at hx
      exact procesar_ok_nonneg h0 hres x hx
  | crearCuenta c =>
    cases hres : procesarDetalles c.detalles db.productos with
    | error e => simpa [aplicar, crear_cuenta_pendiente, hres] using h0
    | ok res =>
      obtain ⟨ps', ds, t⟩ := res
      intro x hx
      simp only [aplicar, crear_cuenta_pendiente, hres] at hx
      exact procesar_ok_nonneg h0 hres x hx
  | agregarProductos cid req =>
    cases hfind : db.cuentas.find? (fun c => c.id == cid && c.estado == "pendiente") with
    | none => simpa [aplicar, agregar_productos_cuenta_pendiente, hfind] using h0
    | some cuenta =>
      cases hres : procesarDetalles req db.productos with
      | error e =>
        simpa [aplicar, agregar_productos_cuenta_pendiente, hfind, hres] using h0
      | ok res =>
        obtain ⟨ps', ds, t⟩ := res
        intro x hx
        simp only [aplicar, agregar_productos_cuenta_pendiente, hfind, hres] at hx
        exact procesar_ok_nonneg h0 hres x hx
  | pagarCuenta cid =>
    cases hfind : db.cuentas.find? (fun c => c.id == cid && c.estado == "pendiente") with
    | none => simpa [aplicar, pagar_cuenta_pendiente, hfind] using h0
    | some cuenta =>
      intro x hx
      simp only [aplicar, pagar_cuenta_pendiente, hfind] at hx
      exact h0 x hx

/-- Every single request preserves the running-total invariant of the
pending accounts. -/
lemma aplicar_totales {op : Op} {db : DB} (h0 : cuentasTotalOk db) :
    cuentasTotalOk (aplicar op db) := by
  cases op with
  | crearProducto p =>
    by_cases hdup : db.productos.any (fun q => q.codigo_barras == p.codigo_barras) = true <;>
      simpa [aplicar, crear_producto, hdup] using h0
  | editarProducto pid p =>
    cases hlook : lookupProducto db.productos pid with
    | none => simpa [aplicar, editar_producto, hlook] using h0
    | some old =>
      by_cases hdup : db.productos.any
          (fun q => q.id != old.id && q.codigo_barras == p.codigo_barras) = true <;>
        simpa [aplicar, editar_producto, hlook, hdup] using h0
  | eliminarProducto pid =>
    cases hlook : lookupProducto db.productos pid with
    | none => simpa [aplicar, eliminar_producto, hlook] using h0
    | some old => simpa [aplicar, eliminar_producto, hlook] using h0
  | crearVenta v =>
    cases hres : procesarDetalles v.detalles db.productos with
    | error e => simpa [aplicar, crear_venta, hres] using h0
    | ok res =>
      obtain ⟨ps', ds, t⟩ := res
      simpa [aplicar, crear_venta, hres] using h0
  | crearCuenta c =>
    cases hres : procesarDetalles c.detalles db.productos with
    | error e => simpa [aplicar, crear_cuenta_pendiente, hres] using h0
    | ok res =>
      obtain ⟨ps', ds, t⟩ := res
      intro x hx
      simp only [aplicar, crear_cuenta_pendiente, hres, List.mem_append,
        List.mem_singleton] at hx
      rcases hx with hmem | rfl
      · exact h0 x hmem
      · simpa using procesar_ok_total hres
  | agregarProductos cid req =>
    cases hfind : db.cuentas.find? (fun c => c.id == cid && c.estado == "pendiente") with
    | none => simpa [aplicar, agregar_productos_cuenta_pendiente, hfind] using h0
    | some cuenta =>
      cases hres : procesarDetalles req db.productos with
      | error e =>
        simpa [aplicar, agregar_productos_cuenta_pendiente, hfind, hres] using h0
      | ok res =>
        obtain ⟨ps', ds, t⟩ := res
        intro x hx
        simp only [aplicar, agregar_productos_cuenta_pendiente, hfind, hres] at hx
        rcases mem_updateFirst hx with hmem | ⟨y, hy, rfl⟩
        · exact h0 x hmem
        · have hyT := h0 y (List.mem_of_find?_eq_some hy)
          show y.total + t = sumaDetalles (y.detalles ++ ds)
          rw [hyT, procesar_ok_total hres, sumaDetalles_append]
  | pagarCuenta cid =>
    cases hfind : db.cuentas.find? (fun c => c.id == cid && c.estado == "pendiente") with
    | none => simpa [aplicar, pagar_cuenta_pendiente, hfind] using h0
    | some cuenta =>
      intro x hx
      simp only [aplicar, pagar_cuenta_pendiente, hfind] at hx
      rcases mem_updateFirst hx with hmem | ⟨y, hy, rfl⟩
      · exact h0 x hmem
      · exact h0 y (List.mem_of_find?_eq_some hy)

lemma run_cons (op : Op) (ops : List Op) (db : DB) :
    run (op :: ops) db = run ops (aplicar op db) := rfl

end Lemas

section Escenarios

/-- Store with one product: Coca, barcode 750, price 10, five on hand. -/
def dbCoca : DB := ⟨[⟨1, "Coca", "750", 10, 5⟩], [], [], 2, 1, 1⟩

/-- Store with two products, the second with a single unit on hand. -/
def dbDoble : DB :=
  ⟨[⟨1, "Coca", "750", 10, 5⟩, ⟨2, "Pan", "800", 7, 1⟩], [], [], 3, 1, 1⟩

/-- Ana's open tab: two Cocas at the captured price of 10. -/
def cuentaAna : Cuenta := ⟨1, "Ana", "pendiente", 20, [⟨1, 2, 10⟩]⟩

/-- Store state right after opening Ana's tab from `dbCoca`. -/
def dbAnaPendiente : DB := ⟨[⟨1, "Coca", "750", 10, 3⟩], [], [cuentaAna], 2, 1, 2⟩

/-- Store state after settling Ana's tab once. -/
def dbAnaPagada : DB := aplicar (.pagarCuenta 1) dbAnaPendiente

/-- The sale produced by selling two Cocas from `dbCoca`. -/
def ventaCoca : Venta := ⟨1, 20, [⟨1, 2, 10⟩]⟩

/-- Store state after that sale. -/
def dbCocaVenta : DB := ⟨[⟨1, "Coca", "750", 10, 3⟩], [ventaCoca], [], 2, 2, 1⟩

end Escenarios

/-- Claim C1 (counterexample): the quantity invariant fails as stated —
`editar_producto` writes the request's `cantidad` without any sign check, so
one product update drives quantity on hand below zero. -/
theorem c1_contraejemplo :
    ∃ p ∈ (run [Op.crearProducto ⟨"Coca", "750", 10, 5⟩,
                Op.editarProducto 1 ⟨"Coca", "750", 10, -3⟩] dbInicial).productos,
      p.cantidad < 0 := by decide

/-- Claim C1 (amended): provided every product-create and product-update
payload in the sequence carries a non-negative quantity, no sequence of
operations ever drives any product's quantity on hand negative — the
stock-affecting transactions are all guarded by the sufficiency check. -/
theorem c1_stock_nunca_negativo (ops : List Op) (db : DB)
    (h0 : stockNoNegativo db) (h1 : ∀ op ∈ ops, opCantidadOk op = true) :
    stockNoNegativo (run ops db) := by
  induction ops generalizing db with
  | nil => exact h0
  | cons op ops ih =>
    rw [run_cons]
    exact ih _ (aplicar_stock h0 (h1 op (List.mem_cons_self _ _)))
      (fun o ho => h1 o (List.mem_cons_of_mem _ ho))

/-- Claim C1 witness: a concrete create-sell-tab-settle sequence keeps all
stock non-negative. -/
theorem c1_stock_nunca_negativo_testigo :
    stockNoNegativo (run [Op.crearProducto ⟨"Coca", "750", 10, 5⟩,
      Op.crearVenta ⟨[⟨1, 3⟩]⟩,
      Op.crearCuenta ⟨"Ana", [⟨1, 2⟩]⟩,
      Op.pagarCuenta 1] dbInicial) :=
  c1_stock_nunca_negativo _ dbInicial (by intro p hp; simp [dbInicial] at hp) (by decide)

/-- Claim C2: a create-sale request with a line item that cannot be satisfied
(product id absent, or quantity above the stock available to it) fails, and
the whole database — inventory and both ledgers — is exactly the
pre-request one: the session is never committed, so no partial decrement
survives.  Quantities are assumed non-negative, as the spec types them. -/
theorem c2_venta_fallida_sin_efecto (db : DB) (venta : VentaCreate)
    (hq : ∀ it ∈ venta.detalles, 0 ≤ it.cantidad)
    (hbad : ∃ it ∈ venta.detalles,
      lookupProducto db.productos it.producto_id = none ∨
      ∃ p, lookupProducto db.productos it.producto_id = some p ∧
        p.cantidad < it.cantidad) :
    (∃ e, crear_venta db venta = .error e) ∧ aplicar (.crearVenta venta) db = db := by
  obtain ⟨e, he⟩ := procesar_mal hq hbad
  exact ⟨⟨e, by simp [crear_venta, he]⟩, by simp [aplicar, crear_venta, he]⟩

/-- Claim C2 witness: selling 3 Cocas and 99 Pans fails and leaves the
two-product store untouched, including Coca's already-reserved units. -/
theorem c2_venta_fallida_testigo :
    (∃ e, crear_venta dbDoble ⟨[⟨1, 3⟩, ⟨2, 99⟩]⟩ = .error e) ∧
      aplicar (.crearVenta ⟨[⟨1, 3⟩, ⟨2, 99⟩]⟩) dbDoble = dbDoble :=
  c2_venta_fallida_sin_efecto dbDoble ⟨[⟨1, 3⟩, ⟨2, 99⟩]⟩ (by decide)
    ⟨⟨2, 99⟩, by decide, Or.inr ⟨⟨2, "Pan", "800", 7, 1⟩, by decide, by decide⟩⟩

/-- Claim C3 (counterexample): settling an already-settled account does not
fail with a distinct `InvalidState` error — the handler's query filters on
`estado == "pendiente"`, so it raises exactly the same 404 `notFound` as a
missing id (the error taxonomy has no invalid-state constructor at all),
though it is true that no second Sale is created. -/
theorem c3_contraejemplo :
    pagar_cuenta_pendiente dbAnaPagada 1 =
      .error (.notFound "Cuenta pendiente no encontrada") ∧
    pagar_cuenta_pendiente dbAnaPagada 999 =
      .error (.notFound "Cuenta pendiente no encontrada") ∧
    dbAnaPagada.cuentas = [{ cuentaAna with estado := "pagada" }] ∧
    dbAnaPagada.ventas.length = 1 ∧
    (aplicar (.pagarCuenta 1) dbAnaPagada).ventas.length = 1 := by decide

/-- Claim C3 (amended): settling an account that is not pending (already
settled, or missing — the code does not distinguish the two) fails with the
404 `notFound` error, creates no second Sale, and leaves the database
unchanged. -/
theorem c3_pagar_dos_veces (db : DB) (cid : Nat)
    (h : ∀ c ∈ db.cuentas, c.id = cid → c.estado ≠ "pendiente") :
    pagar_cuenta_pendiente db cid =
      .error (.notFound "Cuenta pendiente no encontrada") ∧
    aplicar (.pagarCuenta cid) db = db := by
  have hfind : db.cuentas.find? (fun c => c.id == cid && c.estado == "pendiente") = none := by
    rw [List.find?_eq_none]
    intro c hc
    simp only [Bool.and_eq_true, beq_iff_eq]
    rintro ⟨h1, h2⟩
    exact h c hc h1 h2
  exact ⟨by simp [pagar_cuenta_pendiente, hfind], by simp [aplicar, pagar_cuenta_pendiente, hfind]⟩

/-- Claim C3 witness: the second settle of Ana's tab raises 404 and changes
nothing. -/
theorem c3_pagar_dos_veces_testigo :
    pagar_cuenta_pendiente dbAnaPagada 1 =
      .error (.notFound "Cuenta pendiente no encontrada") ∧
    aplicar (.pagarCuenta 1) dbAnaPagada = dbAnaPagada :=
  c3_pagar_dos_veces dbAnaPagada 1 (by decide)

/-- Claim C4 (counterexample): appending to a settled account does not fail
with a distinct `InvalidState` error — the same pending-state query filter
produces exactly the 404 `notFound` raised for a missing id. -/
theorem c4_contraejemplo :
    agregar_productos_cuenta_pendiente dbAnaPagada 1 [⟨1, 1⟩] =
      .error (.notFound "Cuenta pendiente no encontrada") ∧
    agregar_productos_cuenta_pendiente dbAnaPagada 999 [⟨1, 1⟩] =
      .error (.notFound "Cuenta pendiente no encontrada") ∧
    dbAnaPagada.cuentas = [{ cuentaAna with estado := "pagada" }] := by decide

/-- Claim C4 (amended): appending to an account that is not pending (settled
or missing — undistinguished) fails with the 404 `notFound` error and leaves
the account, the inventory and both ledgers unchanged. -/
theorem c4_agregar_a_pagada (db : DB) (cid : Nat) (req : List DetalleCreate)
    (h : ∀ c ∈ db.cuentas, c.id = cid → c.estado ≠ "pendiente") :
    agregar_productos_cuenta_pendiente db cid req =
      .error (.notFound "Cuenta pendiente no encontrada") ∧
    aplicar (.agregarProductos cid req) db = db := by
  have hfind : db.cuentas.find? (fun c => c.id == cid && c.estado == "pendiente") = none := by
    rw [List.find?_eq_none]
    intro c hc
    simp only [Bool.and_eq_true, beq_iff_eq]
    rintro ⟨h1, h2⟩
    exact h c hc h1 h2
  exact ⟨by simp [agregar_productos_cuenta_pendiente, hfind],
    by simp [aplicar, agregar_productos_cuenta_pendiente, hfind]⟩

/-- Claim C4 witness: appending one Coca to Ana's settled tab raises 404 and
changes nothing. -/
theorem c4_agregar_a_pagada_testigo :
    agregar_productos_cuenta_pendiente dbAnaPagada 1 [⟨1, 1⟩] =
      .error (.notFound "Cuenta pendiente no encontrada") ∧
    aplicar (.agregarProductos 1 [⟨1, 1⟩]) dbAnaPagada = dbAnaPagada :=
  c4_agregar_a_pagada dbAnaPagada 1 [⟨1, 1⟩] (by decide)

/-- Claim C5: in every state reachable by any request sequence — hence at
every observable point: after open, after each successful append, after
settle — each account's stored total equals the sum of quantity times unit
price over its line items (totals are exact rationals in this model). -/
theorem c5_total_consistente (ops : List Op) (db : DB) (h0 : cuentasTotalOk db) :
    cuentasTotalOk (run ops db) := by
  induction ops generalizing db with
  | nil => exact h0
  | cons op ops ih =>
    rw [run_cons]
    exact ih _ (aplicar_totales h0)

/-- Claim C5 witness: the invariant holds across an open-append-settle
scenario run from the empty store. -/
theorem c5_total_consistente_testigo :
    cuentasTotalOk (run [Op.crearProducto ⟨"Coca", "750", 10, 5⟩,
      Op.crearCuenta ⟨"Ana", [⟨1, 2⟩]⟩,
      Op.agregarProductos 1 [⟨1, 1⟩],
      Op.pagarCuenta 1] dbInicial) :=
  c5_total_consistente _ dbInicial (by intro c hc; simp [dbInicial] at hc)

/-- Claim C6: settling a pending account (assuming account ids are unique,
as the primary key guarantees) flips its state to "pagada", appends — in the
same committed unit — a Sale carrying exactly the account's total and line
items, leaves the inventory untouched, and removes the account from the
active listing. -/
theorem c6_pagar_correcto (db : DB) (cid : Nat) (c : Cuenta)
    (hfind : db.cuentas.find? (fun x => x.id == cid && x.estado == "pendiente") = some c)
    (huniq : db.cuentas.countP (fun x => x.id == cid) ≤ 1) :
    pagar_cuenta_pendiente db cid = .ok
      ({ db with
         ventas := db.ventas ++ [⟨db.nextVentaId, c.total, c.detalles⟩],
         cuentas := updateFirst db.cuentas
           (fun x => x.id == cid && x.estado == "pendiente")
           (fun x => { x with estado := "pagada" }),
         nextVentaId := db.nextVentaId + 1 },
       { c with estado := "pagada" }) ∧
    ∀ x ∈ listar_cuentas_pendientes { db with
         ventas := db.ventas ++ [⟨db.nextVentaId, c.total, c.detalles⟩],
         cuentas := updateFirst db.cuentas
           (fun x => x.id == cid && x.estado == "pendiente")
           (fun x => { x with estado := "pagada" }),
         nextVentaId := db.nextVentaId + 1 }, x.id ≠ cid := by
  constructor
  · simp [pagar_cuenta_pendiente, hfind]
  · intro x hx hxid
    have hxmem : x ∈ updateFirst db.cuentas
        (fun x => x.id == cid && x.estado == "pendiente")
        (fun x => { x with estado := "pagada" }) := List.mem_of_mem_filter hx
    have hxpend : x.estado = "pendiente" := by
      have := List.of_mem_filter hx
      simpa using this
    have hfc : ({ c with estado := "pagada" }) ∈ updateFirst db.cuentas
        (fun x => x.id == cid && x.estado == "pendiente")
        (fun x => { x with estado := "pagada" }) := updateFirst_of_find? hfind
    have hcid : c.id = cid := by
      have := List.find?_some hfind
      simp only [Bool.and_eq_true, beq_iff_eq] at this
      exact this.1
    by_cases hxe : x = { c with estado := "pagada" }
    · rw [hxe] at hxpend
      exact absurd hxpend (by simp)
    · have h2 : 2 ≤ (updateFirst db.cuentas
          (fun x => x.id == cid && x.estado == "pendiente")
          (fun x => { x with estado := "pagada" })).countP (fun x => x.id == cid) :=
        two_le_countP_of_mem hxe hxmem hfc (by simp [hxid]) (by simp [hcid])
      rw [@countP_updateFirst Cuenta db.cuentas
        (fun x => x.id == cid && x.estado == "pendiente") (fun x => x.id == cid)
        (fun x => { x with estado := "pagada" }) (fun y => rfl)] at h2
      omega

/-- Claim C6 witness: settling Ana's tab produces the expected committed
state, and the active listing no longer shows account 1. -/
theorem c6_pagar_correcto_testigo :
    pagar_cuenta_pendiente dbAnaPendiente 1 = .ok
      ({ dbAnaPendiente with
         ventas := dbAnaPendiente.ventas ++
           [⟨dbAnaPendiente.nextVentaId, cuentaAna.total, cuentaAna.detalles⟩],
         cuentas := updateFirst dbAnaPendiente.cuentas
           (fun x => x.id == 1 && x.estado == "pendiente")
           (fun x => { x with estado := "pagada" }),
         nextVentaId := dbAnaPendiente.nextVentaId + 1 },
       { cuentaAna with estado := "pagada" }) ∧
    ∀ x ∈ listar_cuentas_pendientes { dbAnaPendiente with
         ventas := dbAnaPendiente.ventas ++
           [⟨dbAnaPendiente.nextVentaId, cuentaAna.total, cuentaAna.detalles⟩],
         cuentas := updateFirst dbAnaPendiente.cuentas
           (fun x => x.id == 1 && x.estado == "pendiente")
           (fun x => { x with estado := "pagada" }),
         nextVentaId := dbAnaPendiente.nextVentaId + 1 }, x.id ≠ 1 :=
  c6_pagar_correcto dbAnaPendiente 1 cuentaAna (by decide) (by decide)

/-- Claim C7: a line item written by a successful sale or account opening
carries the price the product had in the pre-request store (the price in
effect at the moment of reservation — prices never change inside a
request), and a later product update rewrites only the product table: every
already-recorded sale and account, with its line items, is untouched. -/
theorem c7_precio_capturado (db : DB) :
    (∀ req db1 v, crear_venta db req = .ok (db1, v) →
      ∀ d ∈ v.detalles, ∃ p, lookupProducto db.productos d.producto_id = some p ∧
        d.precio_unitario = p.precio) ∧
    (∀ req db1 c, crear_cuenta_pendiente db req = .ok (db1, c) →
      ∀ d ∈ c.detalles, ∃ p, lookupProducto db.productos d.producto_id = some p ∧
        d.precio_unitario = p.precio) ∧
    (∀ pid pc db2 p2, editar_producto db pid pc = .ok (db2, p2) →
      db2.ventas = db.ventas ∧ db2.cuentas = db.cuentas) := by
  refine ⟨?_, ?_, ?_⟩
  · intro req db1 v hok
    cases hres : procesarDetalles req.detalles db.productos with
    | error e => simp [crear_venta, hres] at hok
    | ok res =>
      obtain ⟨ps, ds, t⟩ := res
      simp only [crear_venta, hres, Except.ok.injEq, Prod.mk.injEq] at hok
      obtain ⟨-, hv⟩ := hok
      rw [← hv]
      exact procesar_ok_precio hres
  · intro req db1 c hok
    cases hres : procesarDetalles req.detalles db.productos with
    | error e => simp [crear_cuenta_pendiente, hres] at hok
    | ok res =>
      obtain ⟨ps, ds, t⟩ := res
      simp only [crear_cuenta_pendiente, hres, Except.ok.injEq, Prod.mk.injEq] at hok
      obtain ⟨-, hc⟩ := hok
      rw [← hc]
      exact procesar_ok_precio hres
  · intro pid pc db2 p2 hok
    cases hlook : lookupProducto db.productos pid with
    | none => simp [editar_producto, hlook] at hok
    | some old =>
      by_cases hdup : db.productos.any
          (fun q => q.id != old.id && q.codigo_barras == pc.codigo_barras) = true
      · simp [editar_producto, hlook, hdup] at hok
      · simp only [editar_producto, hlook, hdup, Bool.false_eq_true, if_false,
          Except.ok.injEq, Prod.mk.injEq] at hok
        obtain ⟨hdb2, -⟩ := hok
        rw [← hdb2]
        exact ⟨rfl, rfl⟩

/-- Claim C7 witness: selling two Cocas records unit price 10, the price in
the pre-sale store. -/
theorem c7_precio_capturado_testigo :
    ∀ d ∈ ventaCoca.detalles, ∃ p, lookupProducto dbCoca.productos d.producto_id = some p ∧
      d.precio_unitario = p.precio :=
  (c7_precio_capturado dbCoca).1 ⟨[⟨1, 2⟩]⟩ dbCocaVenta ventaCoca
    (by simp [crear_venta, procesarDetalles, lookupProducto, dbCoca, decrementar,
        updateFirst, dbCocaVenta, ventaCoca, List.find?]
        norm_num)

/-- Claim C8: a sale with an empty line-item list succeeds, records a Sale
with total 0 and no line items, and changes nothing else: products and
accounts are exactly as before. -/
theorem c8_venta_vacia (db : DB) :
    crear_venta db ⟨[]⟩ = .ok
      ({ db with
         ventas := db.ventas ++ [⟨db.nextVentaId, 0, []⟩],
         nextVentaId := db.nextVentaId + 1 },
       ⟨db.nextVentaId, 0, []⟩) := rfl

/-- Claim C8 witness: the empty sale evaluated on the one-product store. -/
theorem c8_venta_vacia_testigo :
    crear_venta dbCoca ⟨[]⟩ = .ok
      ({ dbCoca with
         ventas := dbCoca.ventas ++ [⟨dbCoca.nextVentaId, 0, []⟩],
         nextVentaId := dbCoca.nextVentaId + 1 },
       ⟨dbCoca.nextVentaId, 0, []⟩) :=
  c8_venta_vacia dbCoca

/-- Claim C9: within one request, each line item's stock check runs against
the stock remaining after the earlier items of the same request, so a request
whose summed quantities for one product (which the request names, and whose
ids all resolve) exceed that product's opening stock fails with
`insufficientStock` — in all three reserving endpoints. -/
theorem c9_ids_repetidos (db : DB) (dets : List DetalleCreate) (pid : Nat) (p : Producto)
    (hpres : ∀ it ∈ dets, (lookupProducto db.productos it.producto_id).isSome = true)
    (hocc : ∃ it ∈ dets, it.producto_id = pid)
    (hp : lookupProducto db.productos pid = some p)
    (hover : p.cantidad < cantidadPedida dets pid) :
    (∃ m, crear_venta db ⟨dets⟩ = .error (.insufficientStock m)) ∧
    (∀ nombre, ∃ m, crear_cuenta_pendiente db ⟨nombre, dets⟩ =
      .error (.insufficientStock m)) ∧
    (∀ cid c, db.cuentas.find? (fun x => x.id == cid && x.estado == "pendiente") = some c →
      ∃ m, agregar_productos_cuenta_pendiente db cid dets =
        .error (.insufficientStock m)) := by
  obtain ⟨m, hm⟩ := procesar_sobrepedido hpres hocc hp hover
  exact ⟨⟨m, by simp [crear_venta, hm]⟩,
         fun nombre => ⟨m, by simp [crear_cuenta_pendiente, hm]⟩,
         fun cid c hfind =>
           ⟨m, by simp [agregar_productos_cuenta_pendiente, hfind, hm]⟩⟩

/-- Claim C9 witness: two line items of 3 Cocas each against a stock of 5 —
each alone satisfiable — are rejected for insufficient stock. -/
theorem c9_ids_repetidos_testigo :
    ∃ m, crear_venta dbCoca ⟨[⟨1, 3⟩, ⟨1, 3⟩]⟩ = .error (.insufficientStock m) :=
  (c9_ids_repetidos dbCoca [⟨1, 3⟩, ⟨1, 3⟩] 1 ⟨1, "Coca", "750", 10, 5⟩
    (by decide) (by decide) (by decide) (by decide)).1

/-- Claim C10: a successful settle leaves the product table — every
quantity, price, name and barcode — exactly as it was: settlement writes
only the sale ledger and the account's state. -/
theorem c10_pagar_no_toca_inventario (db : DB) (cid : Nat) (db' : DB) (c' : Cuenta)
    (h : pagar_cuenta_pendiente db cid = .ok (db', c')) :
    db'.productos = db.productos := by
  cases hfind : db.cuentas.find? (fun x => x.id == cid && x.estado == "pendiente") with
  | none => simp [pagar_cuenta_pendiente, hfind] at h
  | some cuenta =>
    simp only [pagar_cuenta_pendiente, hfind, Except.ok.injEq, Prod.mk.injEq] at h
    obtain ⟨hdb, -⟩ := h
    rw [← hdb]

/-- Claim C10 witness: settling Ana's tab leaves the product table of the
pre-settle store unchanged. -/
theorem c10_pagar_no_toca_inventario_testigo :
    dbAnaPagada.productos = dbAnaPendiente.productos :=
  c10_pagar_no_toca_inventario dbAnaPendiente 1 dbAnaPagada
    { cuentaAna with estado := "pagada" } (by decide)

end Tiendita
